import Mathlib

/-!
Verification development for the `homebridge-apsystem-inverter` plugin
(`src/index.js`).  The JavaScript source is shallowly embedded: JSON
values become the inductive `JVal`, JS numbers are modelled as exact
rationals (`ℚ`), fallible operations (`JSON.parse`, network calls)
return `Option`/`Except`, and the HTTP layer is abstracted into a
`World` record giving the outcome of each request the code performs.
-/

namespace APS

/-- JSON values as delivered by the HTTP layer.  JS numbers are modelled
as rationals; `NaN`/`Infinity` and `undefined` do not occur in parsed
JSON payloads and are kept out of the model (parses that would produce
`NaN` are modelled as `Option.none`). -/
inductive JVal where
  | null
  | bool (b : Bool)
  | num (q : ℚ)
  | str (s : String)
  | arr (elems : List JVal)
  | obj (fields : List (String × JVal))

/-- Last-occurrence field lookup, matching the value JS property access
yields on an object built by `JSON.parse` (duplicate keys: last wins). -/
def lookupField : List (String × JVal) → String → Option JVal
  | [], _ => none
  | (k', v) :: rest, k =>
    match lookupField rest k with
    | some r => some r
    | none => if k' = k then some v else none

/-- Property access `v.k`: `some` value on objects that carry the field,
`none` (JS `undefined`) otherwise. -/
def objGet (v : JVal) (k : String) : Option JVal :=
  match v with
  | .obj fields => lookupField fields k
  | _ => none

/-- JS falsiness of a value: `null`, `false`, `0` and `""` are falsy. -/
def jsFalsy : JVal → Bool
  | .null => true
  | .bool b => !b
  | .num q => q = 0
  | .str s => s = ""
  | .arr _ => false
  | .obj _ => false

/-- JS `typeof v === 'object'` (true for objects, arrays and `null`). -/
def jsTypeofObject : JVal → Bool
  | .null => true
  | .obj _ => true
  | .arr _ => true
  | _ => false

/-- Entry test of the dashboard filter
`v => v !== null && v !== undefined && v !== ''`. -/
def jsValidEntry : JVal → Bool
  | .null => false
  | .str s => s ≠ ""
  | _ => true

/-- Numeric value of a decimal digit character. -/
def digitVal (c : Char) : ℕ := c.toNat - 48

/-- Value of a list of decimal digit characters. -/
def digitsToNat (ds : List Char) : ℕ :=
  ds.foldl (fun acc c => acc * 10 + digitVal c) 0

/-- Value of a hexadecimal digit character, if it is one. -/
def hexVal (c : Char) : Option ℕ :=
  if '0' ≤ c ∧ c ≤ '9' then some (c.toNat - 48)
  else if 'a' ≤ c ∧ c ≤ 'f' then some (c.toNat - 87)
  else if 'A' ≤ c ∧ c ≤ 'F' then some (c.toNat - 55)
  else none

/-- Hexadecimal digit test. -/
def isHexDigit (c : Char) : Bool := (hexVal c).isSome

/-- Value of a list of hexadecimal digit characters. -/
def hexDigitsToNat (ds : List Char) : ℕ :=
  ds.foldl (fun acc c => acc * 16 + ((hexVal c).getD 0)) 0

/-- Power of ten with an integer exponent, as a rational. -/
def pow10 (z : ℤ) : ℚ :=
  if 0 ≤ z then ((10 : ℚ) ^ z.toNat) else 1 / ((10 : ℚ) ^ (-z).toNat)

/-- JS `parseFloat` on a string: longest valid decimal-literal prefix
after leading whitespace; `none` models `NaN`.  (The `Infinity` literal
is outside the model.) -/
def parseFloatStr (s : String) : Option ℚ :=
  let cs := s.data.dropWhile Char.isWhitespace
  let sgn : ℚ × List Char :=
    match cs with
    | '-' :: r => (-1, r)
    | '+' :: r => (1, r)
    | _ => (1, cs)
  let ip := (sgn.2.span Char.isDigit).1
  let cs2 := (sgn.2.span Char.isDigit).2
  let fpPair : List Char × List Char :=
    match cs2 with
    | '.' :: r => ((r.span Char.isDigit).1, (r.span Char.isDigit).2)
    | _ => ([], cs2)
  let fp := fpPair.1
  let cs3 := fpPair.2
  if ip = [] ∧ fp = [] then none
  else
    let mant : ℚ := (digitsToNat (ip ++ fp) : ℚ) / ((10 : ℚ) ^ fp.length)
    let expo : ℤ :=
      match cs3 with
      | e :: r =>
        if e = 'e' ∨ e = 'E' then
          let es : ℤ × List Char :=
            match r with
            | '-' :: rr => (-1, rr)
            | '+' :: rr => (1, rr)
            | _ => (1, r)
          let ed := (es.2.span Char.isDigit).1
          if ed = [] then 0 else es.1 * (digitsToNat ed : ℤ)
        else 0
      | [] => 0
    some (sgn.1 * mant * pow10 expo)

/-- JS `parseInt` (radix auto-detection) on a string: longest valid
integer-literal prefix after leading whitespace, with `0x`/`0X` hex
support; `none` models `NaN`. -/
def parseIntStr (s : String) : Option ℤ :=
  let cs := s.data.dropWhile Char.isWhitespace
  let sgn : ℤ × List Char :=
    match cs with
    | '-' :: r => (-1, r)
    | '+' :: r => (1, r)
    | _ => (1, cs)
  match sgn.2 with
  | '0' :: x :: r =>
    if x = 'x' ∨ x = 'X' then
      let hd := (r.span fun c => isHexDigit c).1
      if hd = [] then none else some (sgn.1 * (hexDigitsToNat hd : ℤ))
    else
      let ds := (('0' :: x :: r).span Char.isDigit).1
      if ds = [] then none else some (sgn.1 * (digitsToNat ds : ℤ))
  | other =>
    let ds := (other.span Char.isDigit).1
    if ds = [] then none else some (sgn.1 * (digitsToNat ds : ℤ))

/-- Full-string decimal literal (JS `StrDecimalLiteral` without sign),
requiring the whole input to be consumed. -/
def decFull (cs : List Char) : Option ℚ :=
  let ip := (cs.span Char.isDigit).1
  let cs2 := (cs.span Char.isDigit).2
  let fpPair : Option (List Char × List Char) :=
    match cs2 with
    | '.' :: r => some ((r.span Char.isDigit).1, (r.span Char.isDigit).2)
    | _ => none
  let fp := (fpPair.map Prod.fst).getD []
  let cs3 := (fpPair.map Prod.snd).getD cs2
  if ip = [] ∧ fp = [] then none
  else
    let mant : ℚ := (digitsToNat (ip ++ fp) : ℚ) / ((10 : ℚ) ^ fp.length)
    match cs3 with
    | [] => some mant
    | e :: r =>
      if e = 'e' ∨ e = 'E' then
        let es : ℤ × List Char :=
          match r with
          | '-' :: rr => (-1, rr)
          | '+' :: rr => (1, rr)
          | _ => (1, r)
        let ed := (es.2.span Char.isDigit).1
        let rest := (es.2.span Char.isDigit).2
        if ed = [] ∨ rest ≠ [] then none
        else some (mant * pow10 (es.1 * (digitsToNat ed : ℤ)))
      else none

/-- JS `ToNumber` applied to a string: trims whitespace, empty string is
`0`, otherwise the whole remainder must be a numeric literal (decimal,
or unsigned hexadecimal); `none` models `NaN`. -/
def toNumberStr (s : String) : Option ℚ :=
  let t := (((s.data.dropWhile Char.isWhitespace).reverse.dropWhile
    Char.isWhitespace).reverse)
  if t = [] then some 0
  else
    match t with
    | '0' :: x :: r =>
      if x = 'x' ∨ x = 'X' then
        if r ≠ [] ∧ r.all (fun c => isHexDigit c) then
          some ((hexDigitsToNat r : ℕ) : ℚ)
        else none
      else decFull t
    | '-' :: r => (decFull r).map (fun q => -q)
    | '+' :: r => decFull r
    | _ => decFull t

/-- Count and removal of a prime factor, with explicit fuel. -/
def stripCount : ℕ → ℕ → ℕ → ℕ × ℕ
  | 0, _, n => (0, n)
  | Nat.succ f, p, n =>
    if 2 ≤ p ∧ n ≠ 0 ∧ n % p = 0 then
      let r := stripCount f p (n / p)
      (r.1 + 1, r.2)
    else (0, n)

/-- JS `ToString` of a number, for numbers whose reduced denominator is
of the form `2^a * 5^b` (every IEEE double has this shape); such numbers
print as their exact terminating decimal expansion.  Other rationals do
not arise from JS values and map to `""`. -/
def ratToString (q : ℚ) : String :=
  if q = 0 then "0"
  else
    let sign := if q < 0 then "-" else ""
    let n := q.num.natAbs
    let d := q.den
    let s2 := stripCount d 2 d
    let s5 := stripCount s2.2 5 s2.2
    if s5.2 ≠ 1 then ""
    else
      let k := max s2.1 s5.1
      if k = 0 then sign ++ toString n
      else
        let scaled := n * 10 ^ k / d
        let s := toString scaled
        let s := if s.length ≤ k then
          String.mk (List.replicate (k + 1 - s.length) '0') ++ s else s
        sign ++ s.take (s.length - k) ++ "." ++ s.drop (s.length - k)

mutual

/-- JS `ToString` of a value (arrays join their elements with commas;
`null` elements print as the empty string). -/
def jsToString : JVal → String
  | .null => "null"
  | .bool true => "true"
  | .bool false => "false"
  | .num q => ratToString q
  | .str s => s
  | .arr es => jsToStringElems es
  | .obj _ => "[object Object]"

/-- Comma-joined element rendering used by array `ToString`. -/
def jsToStringElems : List JVal → String
  | [] => ""
  | [JVal.null] => ""
  | [v] => jsToString v
  | JVal.null :: vs => "," ++ jsToStringElems vs
  | v :: vs => jsToString v ++ "," ++ jsToStringElems vs

end

/-- JS loose equality `v == 1` (the only loose comparison the source
performs on payload data, at the legacy `code` check). -/
def looseEqOne : JVal → Bool
  | .num q => q = 1
  | .str s => toNumberStr s = some 1
  | .bool b => b
  | .null => false
  | .obj _ => false
  | .arr es => toNumberStr (jsToStringElems es) = some 1

/-- Truncation of a rational toward zero (JS `parseInt` applied to the
decimal rendering of a number). -/
def ratTrunc (q : ℚ) : ℤ := Int.tdiv q.num (q.den : ℤ)

/-- JS `parseInt` applied to a value (`ToString` coercion first; on an
array the first element decides, since a comma terminates the literal). -/
def jsParseInt : JVal → Option ℤ
  | .num q => some (ratTrunc q)
  | .str s => parseIntStr s
  | .arr (JVal.null :: _) => none
  | .arr (v :: _) => jsParseInt v
  | .arr [] => none
  | _ => none

/-- JS `parseFloat` applied to a value (`ToString` coercion first; on an
array the first element decides, since a comma terminates the literal). -/
def jsParseFloat : JVal → Option ℚ
  | .num q => some q
  | .str s => parseFloatStr s
  | .arr (JVal.null :: _) => none
  | .arr (v :: _) => jsParseFloat v
  | .arr [] => none
  | _ => none

/-- Floor of a rational as an integer. -/
def ratFloor (q : ℚ) : ℤ := Int.fdiv q.num (q.den : ℤ)

/-- JS `Math.round`: nearest integer, ties toward positive infinity. -/
def jsRound (q : ℚ) : ℤ := ratFloor (q + 1 / 2)

/-- JS `parseFloat(x.toFixed(2))`: round to two decimal places, ties
toward positive infinity (the `toFixed` tie rule picks the larger
candidate). -/
def round2 (q : ℚ) : ℚ := ((ratFloor (q * 100 + 1 / 2) : ℚ)) / 100

/-- Opening curly brace character. -/
def jLBrace : Char := Char.ofNat 123

/-- Closing curly brace character. -/
def jRBrace : Char := Char.ofNat 125

/-- JSON insignificant whitespace. -/
def isJsonWs (c : Char) : Bool :=
  c = ' ' ∨ c = '\t' ∨ c = '\n' ∨ c = '\r'

/-- String-literal body parser for `JSON.parse` (called after the
opening quote): returns the decoded characters and the remainder. -/
def parseJStrChars : ℕ → List Char → Option (List Char × List Char)
  | 0, _ => none
  | Nat.succ f, cs =>
    match cs with
    | [] => none
    | c :: r =>
      if c = '"' then some ([], r)
      else if c = '\\' then
        match r with
        | [] => none
        | e :: r2 =>
          let dec : Option (Char × List Char) :=
            if e = '"' ∨ e = '\\' ∨ e = '/' then some (e, r2)
            else if e = 'b' then some (Char.ofNat 8, r2)
            else if e = 'f' then some (Char.ofNat 12, r2)
            else if e = 'n' then some (Char.ofNat 10, r2)
            else if e = 'r' then some (Char.ofNat 13, r2)
            else if e = 't' then some (Char.ofNat 9, r2)
            else if e = 'u' then
              match r2 with
              | h1 :: h2 :: h3 :: h4 :: r3 =>
                if isHexDigit h1 ∧ isHexDigit h2 ∧ isHexDigit h3 ∧
                    isHexDigit h4 then
                  some (Char.ofNat (hexDigitsToNat [h1, h2, h3, h4]), r3)
                else none
              | _ => none
            else none
          match dec with
          | none => none
          | some (ch, r3) =>
            (parseJStrChars f r3).map (fun p => (ch :: p.1, p.2))
      else if c.toNat < 32 then none
      else (parseJStrChars f r).map (fun p => (c :: p.1, p.2))

/-- Number parser for `JSON.parse` (strict JSON grammar: optional minus,
no leading zeros, mandatory fraction/exponent digits). -/
def parseJNum (cs : List Char) : Option (JVal × List Char) :=
  let sgn : ℚ × List Char :=
    match cs with
    | '-' :: r => (-1, r)
    | _ => (1, cs)
  let ip := (sgn.2.span Char.isDigit).1
  let cs2 := (sgn.2.span Char.isDigit).2
  if ip = [] then none
  else if 1 < ip.length ∧ ip.headD '1' = '0' then none
  else
    let fpPair : Option (List Char × List Char) :=
      match cs2 with
      | '.' :: r => some ((r.span Char.isDigit).1, (r.span Char.isDigit).2)
      | _ => none
    match fpPair with
    | some ([], _) => none
    | _ =>
      let fp := (fpPair.map Prod.fst).getD []
      let cs3 := (fpPair.map Prod.snd).getD cs2
      let mant : ℚ := sgn.1 * (digitsToNat (ip ++ fp) : ℚ) /
        ((10 : ℚ) ^ fp.length)
      match cs3 with
      | e :: r =>
        if e = 'e' ∨ e = 'E' then
          let es : ℤ × List Char :=
            match r with
            | '-' :: rr => (-1, rr)
            | '+' :: rr => (1, rr)
            | _ => (1, r)
          let ed := (es.2.span Char.isDigit).1
          let rest := (es.2.span Char.isDigit).2
          if ed = [] then none
          else some (.num (mant * pow10 (es.1 * (digitsToNat ed : ℤ))), rest)
        else some (.num mant, cs3)
      | [] => some (.num mant, [])

mutual

/-- Value parser for `JSON.parse`, with explicit fuel. -/
def parseJVal : ℕ → List Char → Option (JVal × List Char)
  | 0, _ => none
  | Nat.succ f, cs =>
    let cs := cs.dropWhile isJsonWs
    match cs with
    | 'n' :: 'u' :: 'l' :: 'l' :: r => some (.null, r)
    | 't' :: 'r' :: 'u' :: 'e' :: r => some (.bool true, r)
    | 'f' :: 'a' :: 'l' :: 's' :: 'e' :: r => some (.bool false, r)
    | '"' :: r =>
      match parseJStrChars (r.length + 1) r with
      | some (s, r') => some (.str (String.mk s), r')
      | none => none
    | '[' :: r =>
      let r2 := r.dropWhile isJsonWs
      match r2 with
      | ']' :: r3 => some (.arr [], r3)
      | _ =>
        match parseJElems f r2 with
        | some (vs, r3) => some (.arr vs, r3)
        | none => none
    | c :: r =>
      if c = jLBrace then
        let r2 := r.dropWhile isJsonWs
        match r2 with
        | c2 :: r3 =>
          if c2 = jRBrace then some (.obj [], r3)
          else
            match parseJFields f r2 with
            | some (fs, r4) => some (.obj fs, r4)
            | none => none
        | [] => none
      else parseJNum cs
    | [] => none

/-- Array-element list parser for `JSON.parse` (after the opening
bracket, at least one element present). -/
def parseJElems : ℕ → List Char → Option (List JVal × List Char)
  | 0, _ => none
  | Nat.succ f, cs =>
    match parseJVal f cs with
    | none => none
    | some (v, r) =>
      let r2 := r.dropWhile isJsonWs
      match r2 with
      | ',' :: r3 =>
        match parseJElems f r3 with
        | some (vs, r4) => some (v :: vs, r4)
        | none => none
      | ']' :: r3 => some ([v], r3)
      | _ => none

/-- Object-field list parser for `JSON.parse` (after the opening brace,
at least one field present). -/
def parseJFields : ℕ → List Char → Option (List (String × JVal) × List Char)
  | 0, _ => none
  | Nat.succ f, cs =>
    let cs := cs.dropWhile isJsonWs
    match cs with
    | '"' :: r =>
      match parseJStrChars (r.length + 1) r with
      | none => none
      | some (k, r2) =>
        let r3 := r2.dropWhile isJsonWs
        match r3 with
        | ':' :: r4 =>
          match parseJVal f r4 with
          | none => none
          | some (v, r5) =>
            let r6 := r5.dropWhile isJsonWs
            match r6 with
            | ',' :: r7 =>
              match parseJFields f r7 with
              | some (fs, r8) => some ((String.mk k, v) :: fs, r8)
              | none => none
            | c :: r7 =>
              if c = jRBrace then some ([(String.mk k, v)], r7) else none
            | [] => none
        | _ => none
    | _ => none

end

/-- JS `JSON.parse` on a string: `none` models a thrown `SyntaxError`. -/
def jsonParse (s : String) : Option JVal :=
  match parseJVal (s.length + 1) s.data with
  | some (v, rest) => if rest.dropWhile isJsonWs = [] then some v else none
  | none => none

/-- JSON string-literal rendering of a single character. -/
def quoteJsonChar (c : Char) : String :=
  if c = '"' then "\\\""
  else if c = '\\' then "\\\\"
  else if c = Char.ofNat 8 then "\\b"
  else if c = Char.ofNat 9 then "\\t"
  else if c = Char.ofNat 10 then "\\n"
  else if c = Char.ofNat 12 then "\\f"
  else if c = Char.ofNat 13 then "\\r"
  else if c.toNat < 32 then
    "\\u00" ++ String.mk [("0123456789abcdef".data.getD (c.toNat / 16) '0'),
      ("0123456789abcdef".data.getD (c.toNat % 16) '0')]
  else String.singleton c

/-- JSON string-literal rendering of a string. -/
def quoteJson (s : String) : String :=
  "\"" ++ String.join (s.data.map quoteJsonChar) ++ "\""

mutual

/-- JS `JSON.stringify` of a value. -/
def jsonStringify : JVal → String
  | .null => "null"
  | .bool true => "true"
  | .bool false => "false"
  | .num q => ratToString q
  | .str s => quoteJson s
  | .arr es => "[" ++ stringifyElems es ++ "]"
  | .obj fs => String.singleton jLBrace ++ stringifyFields fs ++
      String.singleton jRBrace

/-- Comma-joined rendering of array elements for `JSON.stringify`. -/
def stringifyElems : List JVal → String
  | [] => ""
  | [v] => jsonStringify v
  | v :: vs => jsonStringify v ++ "," ++ stringifyElems vs

/-- Comma-joined rendering of object fields for `JSON.stringify`. -/
def stringifyFields : List (String × JVal) → String
  | [] => ""
  | [(k, v)] => quoteJson k ++ ":" ++ jsonStringify v
  | (k, v) :: fs => quoteJson k ++ ":" ++ jsonStringify v ++ "," ++
      stringifyFields fs

end

/-- Whether `pat` occurs as a leading run of `l`. -/
def listStartsWith : List Char → List Char → Bool
  | [], _ => true
  | _ :: _, [] => false
  | a :: as, b :: bs => a = b && listStartsWith as bs

/-- Whether `pat` occurs contiguously anywhere in `l`. -/
def listContainsSeq (pat : List Char) : List Char → Bool
  | [] => pat = []
  | c :: rest => listStartsWith pat (c :: rest) || listContainsSeq pat rest

/-- JS `s.includes(pat)`. -/
def strContainsSeq (pat s : String) : Bool :=
  listContainsSeq pat.data s.data

/-- An HTTP response as axios resolves it: status, parsed body, headers. -/
structure HttpResp where
  status : ℕ
  data : JVal
  headers : List (String × String) := []

/-- `CACHE_MAX_AGE`: five seconds, in milliseconds. -/
def CACHE_MAX_AGE : ℕ := 5 * 1000

/-- One entry of `requestCache`. -/
structure CacheEntry where
  data : JVal
  status : ℕ
  headers : List (String × String)
  timestamp : ℕ

/-- The `requestCache` map, as an association list with unique keys. -/
abbrev Cache := List (String × CacheEntry)

/-- `requestCache.get`. -/
def cacheGet (k : String) : Cache → Option CacheEntry
  | [] => none
  | (k', e) :: rest => if k' = k then some e else cacheGet k rest

/-- `requestCache.set`: replace an existing key in place, else append. -/
def cacheSet (k : String) (e : CacheEntry) : Cache → Cache
  | [] => [(k, e)]
  | (k', e') :: rest =>
    if k' = k then (k, e) :: rest else (k', e') :: cacheSet k e rest

/-- Axios request configuration, restricted to the fields
`getCacheKey`/`cachedRequest` consult. -/
structure ReqConfig where
  url : Option String
  method : Option String
  params : Option JVal
  data : Option JVal

/-- Mirrors `getCacheKey` (src/index.js:78-84). -/
def getCacheKey (config : ReqConfig) : String :=
  let url := config.url.getD ""
  let method :=
    (match config.method with
     | some s => if s = "" then "get" else s
     | none => "get").toLower
  let params := jsonStringify
    (match config.params with
     | some p => if jsFalsy p then .obj [] else p
     | none => .obj [])
  let data :=
    match config.data with
    | none => ""
    | some d =>
      if jsFalsy d then ""
      else match d with
        | .str s => s
        | v => jsonStringify v
  method ++ ":" ++ url ++ ":" ++ params ++ ":" ++ data

/-- Mirrors `cleanupCache` (src/index.js:89-96): drop entries older than
twice the freshness window. -/
def cleanupCache (now : ℕ) (m : Cache) : Cache :=
  m.filter (fun p => !((now : ℤ) - (p.2.timestamp : ℤ) > (CACHE_MAX_AGE : ℤ) * 2))

/-- The value `cachedRequest` resolves with (the `__fromCache` marker is
part of the source's response shape). -/
structure CRes where
  data : JVal
  status : ℕ
  headers : List (String × String)
  fromCache : Bool

/-- The network, abstracted: every request either resolves with an
`HttpResp` or rejects with an (opaque) error token. -/
abbrev Net := ReqConfig → Except ℕ HttpResp

/-- The guard `config.method && config.method.toLowerCase() === 'get'`. -/
def isGetConfig (config : ReqConfig) : Bool :=
  match config.method with
  | some s => s ≠ "" && s.toLower = "get"
  | none => false

/-- Mirrors `cachedRequest` (src/index.js:101-153).  `now` is the value
`Date.now()` returns during the call; the function yields the resolved
or rejected result together with the cache state after the call. -/
def cachedRequest (net : Net) (now : ℕ) (cache : Cache) (config : ReqConfig) :
    Except ℕ CRes × Cache :=
  if isGetConfig config then
    let cacheKey := getCacheKey config
    let cached := cacheGet cacheKey cache
    let freshHit : Option CacheEntry :=
      match cached with
      | some c =>
        if (now : ℤ) - (c.timestamp : ℤ) < (CACHE_MAX_AGE : ℤ) then some c
        else none
      | none => none
    match freshHit with
    | some c => (.ok ⟨c.data, c.status, c.headers, true⟩, cache)
    | none =>
      match net config with
      | .ok response =>
        let cache' :=
          if 200 ≤ response.status ∧ response.status < 300 then
            cleanupCache now (cacheSet cacheKey
              ⟨response.data, response.status, response.headers, now⟩ cache)
          else cache
        (.ok ⟨response.data, response.status, response.headers, false⟩, cache')
      | .error e =>
        match cached with
        | some c => (.ok ⟨c.data, c.status, c.headers, true⟩, cache)
        | none => (.error e, cache)
  else ((net config).map (fun r => ⟨r.data, r.status, r.headers, false⟩), cache)

/-- Outcomes of the HTTP requests one `getAccessoryValue` poll can
perform.  `legacyFetch`/`dashboardFetch` are `none` when the axios call
rejects (network error, timeout, or a status outside the accepted
`validateStatus` range `[200,500)`); `loginOk` tells whether the login
`GET` resolved (status in `[200,400)`, redirects followed); `jarCookies`
is what the shared cookie jar holds for the dashboard domain after the
login flow and the best-effort dashboard warm-up visit. -/
structure World where
  legacyFetch : Option HttpResp
  loginOk : Bool
  jarCookies : List (String × String)
  dashboardFetch : Option HttpResp

/-- Falsiness of an optional string argument (JS `!x`: absent or empty). -/
def jsFalsyOptStr : Option String → Bool
  | none => true
  | some s => s = ""

/-- Mirrors `getDemoSessionCookies` (src/index.js:217-270): with both
the demo URL and the user id falsy the internal throw is caught and `{}`
is returned; a failing login `GET` likewise yields `{}`; otherwise the
cookie-jar contents are harvested (the warm-up visit's failure is
non-fatal and is already folded into `jarCookies`). -/
def getDemoSessionCookies (demoUrl demoUserId : Option String) (w : World) :
    List (String × String) :=
  if jsFalsyOptStr demoUrl ∧ jsFalsyOptStr demoUserId then []
  else if w.loginOk then w.jarCookies else []

/-- The marker test at src/index.js:315. -/
def isHtmlErrorBody (s : String) : Bool :=
  strContainsSeq "<!DOCTYPE" s || strContainsSeq "EMA has encountered an error" s

/-- Mirrors `getDashboardData` (src/index.js:281-344): a rejected POST
gives `null`; a textual body that looks like an HTML error page gives
`null`; an otherwise textual body is JSON-parsed (failure gives `null`),
replacing the response's `data`. -/
def getDashboardData (_cookies : List (String × String)) (_endpoint : String)
    (w : World) : Option HttpResp :=
  match w.dashboardFetch with
  | none => none
  | some response =>
    match response.data with
    | .str s =>
      if isHtmlErrorBody s then none
      else
        match jsonParse s with
        | some v => some { response with data := v }
        | none => none
    | _ => some response

/-- The daily-energy endpoint path constant. -/
def DASHBOARD_DAILY_ENERGY_ENDPOINT : String :=
  "/ema/ajax/getDashboardApiAjax/getDashboardUserDailyEnergyInLastWeekAjax"

/-- Mirrors `getInverterData` (src/index.js:354-427).  In legacy mode a
404 response, like any rejection, yields `null`; in session mode missing
credentials, an empty cookie harvest, or a missing/falsy dashboard body
yield `null`. -/
def getInverterData (useLegacyApi : Bool) (_ecuId demoLoginUrl demoUserId :
    Option String) (w : World) : Option HttpResp :=
  if useLegacyApi then
    match w.legacyFetch with
    | none => none
    | some response => if response.status = 404 then none else some response
  else if jsFalsyOptStr demoLoginUrl ∧ jsFalsyOptStr demoUserId then none
  else
    let sessionCookies := getDemoSessionCookies demoLoginUrl demoUserId w
    if sessionCookies.isEmpty then none
    else
      match getDashboardData sessionCookies DASHBOARD_DAILY_ENERGY_ENDPOINT w with
      | none => none
      | some dailyResponse =>
        if jsFalsy dailyResponse.data then none else some dailyResponse

/-- The reading-kind constant `DEF_Watts` (src/index.js:11). -/
def DEF_Watts : String := "Watts"

/-- The reading-kind constant `DEF_KWH` (src/index.js:12). -/
def DEF_KWH : String := "Kwh"

/-- The `energyList` selection of the dashboard path
(src/index.js:528-540): `data.list` if it is an array, else `data`
itself if it is an array, else `data.data` if that is an array, else
the empty list. -/
def extractEnergyList (data : JVal) : List JVal :=
  match objGet data "list" with
  | some (.arr xs) => xs
  | _ =>
    match data with
    | .arr xs => xs
    | _ =>
      match objGet data "data" with
      | some (.arr ys) => ys
      | _ => []

/-- The aggregation over the extracted dashboard list
(src/index.js:542-558): filter out `null`/`undefined`/`''`, take the
last remaining entry, `parseFloat` it (default `0`), then either the
average-power approximation (`Watts`) or the two-decimal daily total. -/
def dashVal (inverterDataValue : String) (energyList : List JVal) : ℚ :=
  match energyList with
  | [] => 0
  | _ :: _ =>
    let validValues := energyList.filter jsValidEntry
    match validValues.getLast? with
    | none => 0
    | some lastv =>
      let todayEnergy : ℚ := (jsParseFloat lastv).getD 0
      if inverterDataValue = DEF_Watts then
        ((jsRound (todayEnergy / 24 * 1000) : ℤ) : ℚ)
      else round2 todayEnergy

/-- The trailing `value || 0` (src/index.js:562). -/
def jsOrZero (q : ℚ) : ℚ := if q = 0 then 0 else q

/-- The dashboard-path normalizer, mirroring the `try` block of
`getAccessoryValue` (src/index.js:519-567): the list handling runs only
when `data` is truthy and `typeof data === 'object'`. -/
def normalizeDashboard (inverterDataValue : String) (data : JVal) : ℚ :=
  let value : ℚ :=
    if !jsFalsy data && jsTypeofObject data then
      dashVal inverterDataValue (extractEnergyList data)
    else 0
  jsOrZero value

/-- The legacy `code` guard (src/index.js:450-452): a present `code`
field that is neither `null` nor loosely equal to `1` short-circuits
to `0`. -/
def legacyCodeBad (responseData : JVal) : Bool :=
  match objGet responseData "code" with
  | some c =>
    match c with
    | .null => false
    | c' => !looseEqOne c'
  | none => false

/-- Extraction of `powerData` in the legacy path (src/index.js:458-466):
`none` when the flow returns `0` before the array is used (missing or
falsy `data` field, or a `data.power` string `JSON.parse` throws on —
the surrounding `catch` turns that throw into `0`). -/
def legacyPowerData (responseData : JVal) : Option JVal :=
  match objGet responseData "data" with
  | none => none
  | some d =>
    if jsFalsy d then none
    else
      match objGet d "power" with
      | some (.str s) => jsonParse s
      | some v => some v
      | none => some .null

/-- The legacy kWh accumulation loop (src/index.js:475-479). -/
def legacyKwTotal (powerData : List JVal) : ℚ :=
  powerData.foldl
    (fun kw_total v =>
      kw_total + ((((jsParseInt v).getD 0 : ℤ) : ℚ) * (8345 / 100000) / 1000))
    0

/-- The legacy-path normalizer (src/index.js:468-481): a non-array or
empty `powerData` yields `0`; `Watts` integer-parses the last sample;
any other reading kind sums `sample * 0.08345 / 1000` and keeps two
decimals. -/
def legacyValueFromPower (inverterDataValue : String) (powerData : JVal) : ℚ :=
  match powerData with
  | .arr xs =>
    match xs with
    | [] => 0
    | _ :: _ =>
      if inverterDataValue = DEF_Watts then
        (((xs.getLast?.bind jsParseInt).getD 0 : ℤ) : ℚ)
      else round2 (legacyKwTotal xs)
  | _ => 0

/-- The re-parse of the dashboard body inside `getAccessoryValue`
(src/index.js:503-517): the final `data` value reaching the normalizer,
`none` when the flow returns `0` first. -/
def finalDashData (sessionCookies : List (String × String)) (w : World) :
    Option JVal :=
  match getDashboardData sessionCookies DASHBOARD_DAILY_ENERGY_ENDPOINT w with
  | none => none
  | some dailyResponse =>
    if jsFalsy dailyResponse.data then none
    else
      match dailyResponse.data with
      | .str s => jsonParse s
      | v => some v

/-- Mirrors `getAccessoryValue` (src/index.js:439-568), the host-facing
entry point.  Every throw the source can raise is caught inside the
source, so the embedding is a total function into `ℚ`: the promise
always resolves with a number. -/
def getAccessoryValue (inverterDataValue : String) (useLegacyApi : Bool)
    (ecuId demoLoginUrl demoUserId : Option String) (w : World) : ℚ :=
  if useLegacyApi then
    match getInverterData true ecuId none none w with
    | none => 0
    | some inverterData =>
      if jsFalsy inverterData.data then 0
      else
        let responseData := inverterData.data
        if legacyCodeBad responseData then 0
        else
          match legacyPowerData responseData with
          | none => 0
          | some powerData => legacyValueFromPower inverterDataValue powerData
  else if jsFalsyOptStr demoLoginUrl ∧ jsFalsyOptStr demoUserId then 0
  else
    let sessionCookies := getDemoSessionCookies demoLoginUrl demoUserId w
    if sessionCookies.isEmpty then 0
    else
      match finalDashData sessionCookies w with
      | none => 0
      | some data => normalizeDashboard inverterDataValue data

/-! ## Definitions following the specification's words

These re-state the extraction rules of spec §4.5/§8 verbatim, to be
compared against the embedded code. -/

/-- Spec §4.5: the dashboard entries that survive
"Filter out null/undefined/empty-string entries". -/
def specValidValues (L : List JVal) : List JVal := L.filter jsValidEntry

/-- Spec §8: `lastValid(L)`, the last valid entry of a dashboard list. -/
def specLastValid (L : List JVal) : Option JVal := (specValidValues L).getLast?

/-- Spec §8: `DailyKwh(L) == round2(parseFloat(lastValid(L)))` (with an
unparsable or absent last value reading as `0`, per the spec's
"malformed payloads ... yield exactly 0"). -/
def spec_DailyKwh (L : List JVal) : ℚ :=
  round2 (((specLastValid L).bind jsParseFloat).getD 0)

/-- Spec §8: `Watts(L) == round(lastValid(L)/24*1000)`. -/
def spec_Watts (L : List JVal) : ℚ :=
  ((jsRound ((((specLastValid L).bind jsParseFloat).getD 0) / 24 * 1000) : ℤ) : ℚ)

/-- Spec §8: `Watts(A) == parseInt(A[last]) defaulting to 0` for a
legacy power array. -/
def spec_LegacyWatts (A : List JVal) : ℚ :=
  (((A.getLast?.bind jsParseInt).getD 0 : ℤ) : ℚ)

/-- Spec §8: `Kwh(A) == round2(sum(parseInt(a_i, default 0) * 0.08345 / 1000))`
for a legacy power array. -/
def spec_LegacyKwh (A : List JVal) : ℚ :=
  round2 ((A.map
    (fun a => (((jsParseInt a).getD 0 : ℤ) : ℚ) * (8345 / 100000) / 1000)).sum)

/-- A dashboard body whose `list` field holds the given entries. -/
def mkDashListData (L : List JVal) : JVal := .obj [("list", .arr L)]

/-! ## Degraded-path predicates for the error-handling claim -/

/-- Whether the legacy flow finds no usable power array in a response
body: the `data` field is missing or falsy, `data.power` is a string
`JSON.parse` rejects, or the resulting `powerData` is missing, not an
array, or empty. -/
def legacyPowerMissing (responseData : JVal) : Bool :=
  match legacyPowerData responseData with
  | none => true
  | some (.arr []) => true
  | some (.arr (_ :: _)) => false
  | some _ => true

/-- Degraded/malformed outcomes of a legacy-mode poll: network errors,
textual bodies (HTML error pages, unparsable JSON kept as text by the
transport), empty/falsy payloads, and bodies missing the expected
`data.power` array. -/
def DegradedLegacy (w : World) : Prop :=
  w.legacyFetch = none ∨
  (∃ r, w.legacyFetch = some r ∧
    ((∃ s, r.data = JVal.str s) ∨
     jsFalsy r.data = true ∨
     legacyPowerMissing r.data = true))

/-- Degraded/malformed outcomes of a session-mode poll: a failed login,
an empty cookie harvest, a rejected dashboard POST, an HTML error page,
an unparsable or falsy body, and payloads from which no energy value
can be extracted (missing fields). -/
def DegradedSession (w : World) : Prop :=
  w.loginOk = false ∨
  w.jarCookies = [] ∨
  w.dashboardFetch = none ∨
  (∃ r s, w.dashboardFetch = some r ∧ r.data = JVal.str s ∧
    isHtmlErrorBody s = true) ∨
  (∃ r s, w.dashboardFetch = some r ∧ r.data = JVal.str s ∧
    jsonParse s = none) ∨
  (∃ r, w.dashboardFetch = some r ∧ jsFalsy r.data = true) ∨
  (∀ cookies d, finalDashData cookies w = some d →
    (extractEnergyList d).filter jsValidEntry = [])

/-! ## Helper lemmas -/

/-- The trailing `value || 0` never changes a numeric value. -/
theorem jsOrZero_id (q : ℚ) : jsOrZero q = q := by
  unfold jsOrZero; split <;> simp_all

/-- Property access succeeds only on objects, and objects are truthy. -/
theorem objGet_some_not_falsy {v : JVal} {k : String} {c : JVal}
    (h : objGet v k = some c) : jsFalsy v = false := by
  cases v <;> simp [objGet, jsFalsy] at h ⊢

/-- The dashboard normalizer yields `0` whenever no valid entry can be
extracted. -/
theorem normalizeDashboard_eq_zero_of_no_valid {kind : String} {d : JVal}
    (h : (extractEnergyList d).filter jsValidEntry = []) :
    normalizeDashboard kind d = 0 := by
  unfold normalizeDashboard dashVal
  cases hel : extractEnergyList d with
  | nil => split <;> simp [jsOrZero]
  | cons a as =>
    rw [hel] at h
    simp only [h]
    split <;> simp [jsOrZero]

/-- The legacy aggregation loop computes the sum of the per-sample
energies. -/
theorem legacyKwTotal_eq_sum (xs : List JVal) :
    legacyKwTotal xs = (xs.map
      (fun a => (((jsParseInt a).getD 0 : ℤ) : ℚ) * (8345 / 100000) / 1000)).sum := by
  have key : ∀ (l : List JVal) (c : ℚ),
      l.foldl (fun kw_total v =>
        kw_total + ((((jsParseInt v).getD 0 : ℤ) : ℚ) * (8345 / 100000) / 1000)) c
      = c + (l.map
        (fun a => (((jsParseInt a).getD 0 : ℤ) : ℚ) * (8345 / 100000) / 1000)).sum := by
    intro l
    induction l with
    | nil => intro c; simp
    | cons a as ih => intro c; simp [ih, add_assoc]
  unfold legacyKwTotal
  rw [key, zero_add]

/-- The dashboard normalizer applied to a body carrying a `list` field
reduces to the aggregation over that list. -/
theorem normalizeDashboard_mkDashListData (kind : String) (L : List JVal) :
    normalizeDashboard kind (mkDashListData L) = jsOrZero (dashVal kind L) := by
  unfold normalizeDashboard mkDashListData
  simp [extractEnergyList, objGet, lookupField, jsFalsy, jsTypeofObject]

/-- Setting a key makes it retrievable. -/
theorem cacheGet_cacheSet_self (k : String) (e : CacheEntry) (m : Cache) :
    cacheGet k (cacheSet k e m) = some e := by
  induction m with
  | nil => simp [cacheSet, cacheGet]
  | cons he rest ih =>
    obtain ⟨k', e'⟩ := he
    by_cases h : k' = k <;> simp [cacheSet, cacheGet, h, ih]

/-- Cleanup keeps a retrievable entry that is within twice the window. -/
theorem cacheGet_cleanupCache {now : ℕ} {k : String} {m : Cache}
    {e : CacheEntry} (h : cacheGet k m = some e)
    (hk : ¬((now : ℤ) - (e.timestamp : ℤ) > (CACHE_MAX_AGE : ℤ) * 2)) :
    cacheGet k (cleanupCache now m) = some e := by
  induction m with
  | nil => simp [cacheGet] at h
  | cons he rest ih =>
    obtain ⟨k', e'⟩ := he
    by_cases hkk : k' = k
    · subst hkk
      have he' : e' = e := by simpa [cacheGet] using h
      subst he'
      simp [cleanupCache, List.filter, hk, cacheGet]
    · have h' : cacheGet k rest = some e := by simpa [cacheGet, hkk] using h
      have ih' := ih h'
      simp only [cleanupCache, List.filter] at ih' ⊢
      cases hkeep : (!((now : ℤ) - (e'.timestamp : ℤ) > (CACHE_MAX_AGE : ℤ) * 2))
      · simpa using ih'
      · simpa [cacheGet, hkk] using ih'

/-- Reduction of the legacy path of `getAccessoryValue` once the fetch
resolved with a non-404 status. -/
theorem getAccessoryValue_legacy_reduce (kind : String)
    (ecuId demoLoginUrl demoUserId : Option String) (w : World)
    (r : HttpResp) (hr : w.legacyFetch = some r) (h404 : r.status ≠ 404) :
    getAccessoryValue kind true ecuId demoLoginUrl demoUserId w =
      (if jsFalsy r.data then 0
       else if legacyCodeBad r.data then 0
       else
         match legacyPowerData r.data with
         | none => 0
         | some p => legacyValueFromPower kind p) := by
  simp [getAccessoryValue, getInverterData, hr, h404]

/-- A session-mode poll whose dashboard flow produces no final data
value returns `0`. -/
theorem getAccessoryValue_session_zero_of_finalNone (kind : String)
    (ecuId demoLoginUrl demoUserId : Option String) (w : World)
    (h : ∀ ck, finalDashData ck w = none) :
    getAccessoryValue kind false ecuId demoLoginUrl demoUserId w = 0 := by
  by_cases hcred : jsFalsyOptStr demoLoginUrl ∧ jsFalsyOptStr demoUserId
  · simp [getAccessoryValue, hcred]
  · cases hck : (getDemoSessionCookies demoLoginUrl demoUserId w).isEmpty
    · simp [getAccessoryValue, hcred, hck, h]
    · simp [getAccessoryValue, hcred, hck]

/-- A session-mode poll whose cookie harvest is empty returns `0`. -/
theorem getAccessoryValue_session_zero_of_emptyCookies (kind : String)
    (ecuId demoLoginUrl demoUserId : Option String) (w : World)
    (h : getDemoSessionCookies demoLoginUrl demoUserId w = []) :
    getAccessoryValue kind false ecuId demoLoginUrl demoUserId w = 0 := by
  by_cases hcred : jsFalsyOptStr demoLoginUrl ∧ jsFalsyOptStr demoUserId
  · simp [getAccessoryValue, hcred]
  · simp [getAccessoryValue, hcred, h]

/-! ## Claim theorems -/

/-- C3: for every legacy power array `A`, the normalizer's
`InstantaneousWatts` result is the integer parse of the last element of
`A`, defaulting to `0` when that element is unparsable (or when `A` is
empty); in particular `[100, 200, 250]` yields `250`. -/
theorem legacy_watts_matches_spec :
    (∀ A : List JVal,
      legacyValueFromPower DEF_Watts (JVal.arr A) = spec_LegacyWatts A) ∧
    legacyValueFromPower DEF_Watts
      (JVal.arr [JVal.num 100, JVal.num 200, JVal.num 250]) = 250 := by
  constructor
  · intro A
    cases A with
    | nil => simp [legacyValueFromPower, spec_LegacyWatts]
    | cons a as => simp [legacyValueFromPower, spec_LegacyWatts]
  · decide

/-- C4: for every legacy power array `A`, the normalizer's
`DailyKilowattHours` result is the sum of `parseInt(a_i)` (default `0`)
times `0.08345 / 1000`, rounded to two decimal places; in particular
`[100, 200, 250]` yields `0.05`. -/
theorem legacy_kwh_matches_spec :
    (∀ A : List JVal,
      legacyValueFromPower DEF_KWH (JVal.arr A) = spec_LegacyKwh A) ∧
    legacyValueFromPower DEF_KWH
      (JVal.arr [JVal.num 100, JVal.num 200, JVal.num 250]) = 1 / 20 := by
  constructor
  · intro A
    cases A with
    | nil =>
      simp [legacyValueFromPower, spec_LegacyKwh]
      with_unfolding_all rfl
    | cons a as =>
      have hne : DEF_KWH ≠ DEF_Watts := by decide
      simp [legacyValueFromPower, spec_LegacyKwh, hne, legacyKwTotal_eq_sum]
  · with_unfolding_all rfl

/-- C2: for every dashboard list with at least one valid (non-null,
non-empty) entry, the normalizer returns `round2(parseFloat(lastValid))`
for the daily-kWh kind and `round(lastValid/24*1000)` for the watts
kind, exactly as the spec's formulas state. -/
theorem dashboard_normalizer_matches_spec (L : List JVal)
    (h : specValidValues L ≠ []) :
    normalizeDashboard DEF_KWH (mkDashListData L) = spec_DailyKwh L ∧
    normalizeDashboard DEF_Watts (mkDashListData L) = spec_Watts L := by
  obtain ⟨lastv, hlast⟩ : ∃ l, (specValidValues L).getLast? = some l := by
    cases hv : (specValidValues L).getLast? with
    | some l => exact ⟨l, rfl⟩
    | none => exact absurd (List.getLast?_eq_none_iff.mp hv) h
  obtain ⟨a, as, rfl⟩ : ∃ a as, L = a :: as := by
    cases L with
    | nil => simp [specValidValues] at h
    | cons a as => exact ⟨a, as, rfl⟩
  have hdv : ∀ kind, dashVal kind (a :: as) =
      (if kind = DEF_Watts then
        ((jsRound (((jsParseFloat lastv).getD 0) / 24 * 1000) : ℤ) : ℚ)
      else round2 ((jsParseFloat lastv).getD 0)) := by
    intro kind
    unfold dashVal
    have hfl : ((a :: as).filter jsValidEntry).getLast? = some lastv := by
      simpa [specValidValues] using hlast
    simp [hfl]
  constructor
  · rw [normalizeDashboard_mkDashListData, hdv, jsOrZero_id]
    have hne : DEF_KWH ≠ DEF_Watts := by decide
    simp [hne, spec_DailyKwh, specLastValid, hlast]
  · rw [normalizeDashboard_mkDashListData, hdv, jsOrZero_id]
    simp [spec_Watts, specLastValid, hlast]

/-- Witness for C2 at the spec's example list `["1.2", null, "3.4"]`:
the daily-kWh reading is `3.4` and the watts reading is `142`. -/
theorem dashboard_normalizer_matches_spec_witness :
    specValidValues [JVal.str "1.2", JVal.null, JVal.str "3.4"] ≠ [] ∧
    normalizeDashboard DEF_KWH
      (mkDashListData [JVal.str "1.2", JVal.null, JVal.str "3.4"]) = 17 / 5 ∧
    normalizeDashboard DEF_Watts
      (mkDashListData [JVal.str "1.2", JVal.null, JVal.str "3.4"]) = 142 := by
  have hval : specValidValues [JVal.str "1.2", JVal.null, JVal.str "3.4"] ≠ [] := by
    simp [specValidValues, jsValidEntry]
  refine ⟨hval, ?_, ?_⟩
  · rw [(dashboard_normalizer_matches_spec
      [JVal.str "1.2", JVal.null, JVal.str "3.4"] hval).1]
    with_unfolding_all rfl
  · rw [(dashboard_normalizer_matches_spec
      [JVal.str "1.2", JVal.null, JVal.str "3.4"] hval).2]
    with_unfolding_all rfl

/-- C5 (amended): the dashboard filter removes exactly the null and
empty-string entries before aggregation, so the normalizer's result on a
list equals its result on the list with those entries removed. -/
theorem dashboard_filter_invariant (kind : String) (L : List JVal) :
    normalizeDashboard kind (mkDashListData L) =
    normalizeDashboard kind (mkDashListData (L.filter jsValidEntry)) := by
  rw [normalizeDashboard_mkDashListData, normalizeDashboard_mkDashListData]
  have : dashVal kind L = dashVal kind (L.filter jsValidEntry) := by
    unfold dashVal
    cases L with
    | nil => simp
    | cons a as =>
      cases hF : (a :: as).filter jsValidEntry with
      | nil => simp [hF]
      | cons b bs =>
        have idem : (b :: bs).filter jsValidEntry = b :: bs := by
          rw [← hF, List.filter_filter]
          simp
        simp [hF, idem]
  rw [this]

/-- Counterexample for C5 as stated: the non-numeric entry `"abc"` is
not filtered out — on `[5, "abc"]` the normalizer reads `0` (it
`parseFloat`s the kept `"abc"`), while on `[5]` (the list with all
non-numeric and null entries removed) it reads `5`. -/
theorem dashboard_filter_counterexample :
    ¬ (normalizeDashboard DEF_KWH
        (mkDashListData [JVal.num 5, JVal.str "abc"]) =
       normalizeDashboard DEF_KWH (mkDashListData [JVal.num 5])) := by
  have h1 : normalizeDashboard DEF_KWH
      (mkDashListData [JVal.num 5, JVal.str "abc"]) = 0 := by
    with_unfolding_all rfl
  have h2 : normalizeDashboard DEF_KWH (mkDashListData [JVal.num 5]) = 5 := by
    with_unfolding_all rfl
  rw [h1, h2]
  norm_num

/-- C8: in legacy mode, an HTTP 404 from the legacy endpoint makes
`getAccessoryValue` return `0` rather than throw (the deprecation
diagnostic is console logging, outside the value model). -/
theorem legacy_404_yields_zero (kind : String)
    (ecuId demoLoginUrl demoUserId : Option String) (w : World)
    (r : HttpResp) (hf : w.legacyFetch = some r) (h404 : r.status = 404) :
    getAccessoryValue kind true ecuId demoLoginUrl demoUserId w = 0 := by
  simp [getAccessoryValue, getInverterData, hf, h404]

/-- Witness for C8 at a concrete 404 response. -/
theorem legacy_404_yields_zero_witness :
    (World.mk (some ⟨404, JVal.obj [], []⟩) false [] none).legacyFetch
      = some ⟨404, JVal.obj [], []⟩ ∧
    getAccessoryValue "Watts" true (some "ecu") none none
      ⟨some ⟨404, JVal.obj [], []⟩, false, [], none⟩ = 0 :=
  ⟨rfl, legacy_404_yields_zero "Watts" (some "ecu") none none
    ⟨some ⟨404, JVal.obj [], []⟩, false, [], none⟩ ⟨404, JVal.obj [], []⟩ rfl rfl⟩

/-- C9: with both the login URL and the demo user id absent, session
acquisition returns the empty cookie set (the internal throw is caught
at its boundary), and a session-mode `getAccessoryValue` returns `0`. -/
theorem session_no_credentials_yields_zero (kind : String)
    (ecuId : Option String) (w : World) :
    getDemoSessionCookies none none w = [] ∧
    getAccessoryValue kind false ecuId none none w = 0 := by
  constructor
  · simp [getDemoSessionCookies, jsFalsyOptStr]
  · simp [getAccessoryValue, jsFalsyOptStr]

/-- C10: in legacy mode, a response whose `code` field is present,
non-null and not loosely equal to `1` makes `getAccessoryValue` return
`0` regardless of the reading kind and of any power data present. -/
theorem legacy_bad_code_yields_zero (kind : String)
    (ecuId demoLoginUrl demoUserId : Option String) (w : World)
    (r : HttpResp) (c : JVal) (hf : w.legacyFetch = some r)
    (hc : objGet r.data "code" = some c) (hnn : c ≠ JVal.null)
    (hne : looseEqOne c = false) :
    getAccessoryValue kind true ecuId demoLoginUrl demoUserId w = 0 := by
  have hbad : legacyCodeBad r.data = true := by
    unfold legacyCodeBad
    rw [hc]
    cases c <;> simp_all
  by_cases h404 : r.status = 404
  · simp [getAccessoryValue, getInverterData, hf, h404]
  · have hnf := objGet_some_not_falsy hc
    simp [getAccessoryValue, getInverterData, hf, h404, hnf, hbad]

/-- Witness for C10: `code = 2` with a valid power array still yields `0`. -/
theorem legacy_bad_code_yields_zero_witness :
    objGet (JVal.obj [("code", JVal.num 2),
      ("data", JVal.obj [("power", JVal.arr [JVal.num 100])])]) "code"
      = some (JVal.num 2) ∧
    JVal.num 2 ≠ JVal.null ∧
    looseEqOne (JVal.num 2) = false ∧
    getAccessoryValue "Watts" true (some "ecu") none none
      ⟨some ⟨200, JVal.obj [("code", JVal.num 2),
        ("data", JVal.obj [("power", JVal.arr [JVal.num 100])])], []⟩,
        false, [], none⟩ = 0 :=
  ⟨rfl, by simp, by decide,
    legacy_bad_code_yields_zero "Watts" (some "ecu") none none
      ⟨some ⟨200, JVal.obj [("code", JVal.num 2),
        ("data", JVal.obj [("power", JVal.arr [JVal.num 100])])], []⟩,
        false, [], none⟩
      ⟨200, JVal.obj [("code", JVal.num 2),
        ("data", JVal.obj [("power", JVal.arr [JVal.num 100])])], []⟩
      (JVal.num 2) rfl rfl (by simp) (by decide)⟩

/-- C6: a GET whose first fetch succeeded with a 2xx status is served
from the cache on a second call within the 5-second window — the
identical payload, marked `__fromCache`, with no network call (the
second call's network `net2` is arbitrary and unused) and no cache
mutation; a call after the window has elapsed performs a fresh network
request. -/
theorem cachedRequest_freshness (cfg : ReqConfig) (net1 net2 net3 : Net)
    (t1 t2 t3 : ℕ) (cache0 : Cache) (resp1 resp3 : HttpResp)
    (hg : isGetConfig cfg = true)
    (hmiss : cacheGet (getCacheKey cfg) cache0 = none)
    (hnet1 : net1 cfg = .ok resp1)
    (h2a : 200 ≤ resp1.status) (h2b : resp1.status < 300)
    (hnet3 : net3 cfg = .ok resp3)
    (hfresh : t2 - t1 < 5000) (hstale : 5000 ≤ t3 - t1) :
    (cachedRequest net1 t1 cache0 cfg).1
      = .ok ⟨resp1.data, resp1.status, resp1.headers, false⟩ ∧
    cachedRequest net2 t2 (cachedRequest net1 t1 cache0 cfg).2 cfg
      = (.ok ⟨resp1.data, resp1.status, resp1.headers, true⟩,
         (cachedRequest net1 t1 cache0 cfg).2) ∧
    (cachedRequest net3 t3 (cachedRequest net1 t1 cache0 cfg).2 cfg).1
      = .ok ⟨resp3.data, resp3.status, resp3.headers, false⟩ := by
  have e1def : cachedRequest net1 t1 cache0 cfg
      = (.ok ⟨resp1.data, resp1.status, resp1.headers, false⟩,
         cleanupCache t1 (cacheSet (getCacheKey cfg)
           ⟨resp1.data, resp1.status, resp1.headers, t1⟩ cache0)) := by
    simp [cachedRequest, hg, hmiss, hnet1, h2a, h2b]
  have hget1 : cacheGet (getCacheKey cfg)
      (cleanupCache t1 (cacheSet (getCacheKey cfg)
        ⟨resp1.data, resp1.status, resp1.headers, t1⟩ cache0))
      = some ⟨resp1.data, resp1.status, resp1.headers, t1⟩ :=
    cacheGet_cleanupCache
      (cacheGet_cacheSet_self (getCacheKey cfg) _ cache0)
      (by simp [CACHE_MAX_AGE])
  refine ⟨by rw [e1def], ?_, ?_⟩
  · have hf : (t2 : ℤ) - ((⟨resp1.data, resp1.status, resp1.headers,
        t1⟩ : CacheEntry).timestamp : ℤ) < (CACHE_MAX_AGE : ℤ) := by
      simp only [CACHE_MAX_AGE]
      omega
    rw [e1def]
    simp [cachedRequest, hg, hget1, hf]
  · have hs : ¬((t3 : ℤ) - ((⟨resp1.data, resp1.status, resp1.headers,
        t1⟩ : CacheEntry).timestamp : ℤ) < (CACHE_MAX_AGE : ℤ)) := by
      simp only [CACHE_MAX_AGE]
      omega
    rw [e1def]
    simp [cachedRequest, hg, hget1, hs, hnet3]

/-- Witness for C6: a concrete three-call scenario on an empty cache at
times 0, 4999 and 5000. -/
theorem cachedRequest_freshness_witness :
    isGetConfig ⟨some "http://h/p", some "GET", none, none⟩ = true ∧
    ((cachedRequest (fun _ => .ok ⟨200, JVal.str "a", []⟩) 0 []
        ⟨some "http://h/p", some "GET", none, none⟩).1
      = .ok ⟨JVal.str "a", 200, [], false⟩ ∧
    cachedRequest (fun _ => .error 7) 4999
        (cachedRequest (fun _ => .ok ⟨200, JVal.str "a", []⟩) 0 []
          ⟨some "http://h/p", some "GET", none, none⟩).2
        ⟨some "http://h/p", some "GET", none, none⟩
      = (.ok ⟨JVal.str "a", 200, [], true⟩,
         (cachedRequest (fun _ => .ok ⟨200, JVal.str "a", []⟩) 0 []
           ⟨some "http://h/p", some "GET", none, none⟩).2) ∧
    (cachedRequest (fun _ => .ok ⟨200, JVal.str "b", []⟩) 5000
        (cachedRequest (fun _ => .ok ⟨200, JVal.str "a", []⟩) 0 []
          ⟨some "http://h/p", some "GET", none, none⟩).2
        ⟨some "http://h/p", some "GET", none, none⟩).1
      = .ok ⟨JVal.str "b", 200, [], false⟩) :=
  ⟨by with_unfolding_all rfl,
   cachedRequest_freshness ⟨some "http://h/p", some "GET", none, none⟩
     (fun _ => .ok ⟨200, JVal.str "a", []⟩) (fun _ => .error 7)
     (fun _ => .ok ⟨200, JVal.str "b", []⟩) 0 4999 5000 []
     ⟨200, JVal.str "a", []⟩ ⟨200, JVal.str "b", []⟩
     (by with_unfolding_all rfl) rfl rfl (by decide) (by decide) rfl
     (by decide) (by decide)⟩

/-- C7: a GET whose network fetch fails is served from the cache when an
entry for its key exists (fresh or stale), without cache mutation; the
error propagates only when no entry exists. -/
theorem cachedRequest_stale_fallback (cfg : ReqConfig) (net : Net)
    (now : ℕ) (cache : Cache) (e : ℕ)
    (hg : isGetConfig cfg = true) (hnet : net cfg = .error e) :
    (∀ c, cacheGet (getCacheKey cfg) cache = some c →
      cachedRequest net now cache cfg
        = (.ok ⟨c.data, c.status, c.headers, true⟩, cache)) ∧
    (cacheGet (getCacheKey cfg) cache = none →
      cachedRequest net now cache cfg = (.error e, cache)) := by
  constructor
  · intro c hc
    by_cases hf : (now : ℤ) - (c.timestamp : ℤ) < (CACHE_MAX_AGE : ℤ)
    · simp [cachedRequest, hg, hc, hf]
    · simp [cachedRequest, hg, hc, hf, hnet]
  · intro hc
    simp [cachedRequest, hg, hc, hnet]

/-- Witness for C7: a failing GET against a cache holding a stale entry
for its key returns that entry; against an empty cache it rejects. -/
theorem cachedRequest_stale_fallback_witness :
    isGetConfig ⟨some "http://h/p", some "get", none, none⟩ = true ∧
    cacheGet (getCacheKey ⟨some "http://h/p", some "get", none, none⟩)
      [(getCacheKey ⟨some "http://h/p", some "get", none, none⟩,
        ⟨JVal.str "old", 200, [], 0⟩)] = some ⟨JVal.str "old", 200, [], 0⟩ ∧
    cachedRequest (fun _ => .error 9) 99999
      [(getCacheKey ⟨some "http://h/p", some "get", none, none⟩,
        ⟨JVal.str "old", 200, [], 0⟩)]
      ⟨some "http://h/p", some "get", none, none⟩
      = (.ok ⟨JVal.str "old", 200, [], true⟩,
         [(getCacheKey ⟨some "http://h/p", some "get", none, none⟩,
           ⟨JVal.str "old", 200, [], 0⟩)]) ∧
    cachedRequest (fun _ => .error 9) 99999 []
      ⟨some "http://h/p", some "get", none, none⟩ = (.error 9, []) :=
  ⟨by with_unfolding_all rfl, by simp [cacheGet],
   (cachedRequest_stale_fallback ⟨some "http://h/p", some "get", none, none⟩
     (fun _ => .error 9) 99999
     [(getCacheKey ⟨some "http://h/p", some "get", none, none⟩,
       ⟨JVal.str "old", 200, [], 0⟩)] 9 (by with_unfolding_all rfl) rfl).1
     ⟨JVal.str "old", 200, [], 0⟩ (by simp [cacheGet]),
   (cachedRequest_stale_fallback ⟨some "http://h/p", some "get", none, none⟩
     (fun _ => .error 9) 99999 [] 9 (by with_unfolding_all rfl) rfl).2 rfl⟩

/-- C1: `getAccessoryValue` is a total function into the numbers (the
embedding is `Option`/`Except`-free at the top level because every throw
in the source is caught inside the source), and on every degraded or
malformed path — network errors, HTML error pages, unparsable JSON,
empty/falsy payloads, missing fields — the value it resolves with is
exactly `0`, in both legacy and session mode, for every reading kind and
credential combination. -/
theorem getAccessoryValue_degraded_zero (kind : String)
    (ecuId demoLoginUrl demoUserId : Option String) (w : World) :
    (DegradedLegacy w →
      getAccessoryValue kind true ecuId demoLoginUrl demoUserId w = 0) ∧
    (DegradedSession w →
      getAccessoryValue kind false ecuId demoLoginUrl demoUserId w = 0) := by
  constructor
  · intro h
    rcases h with hnone | ⟨r, hr, hcase⟩
    · simp [getAccessoryValue, getInverterData, hnone]
    · by_cases h404 : r.status = 404
      · simp [getAccessoryValue, getInverterData, hr, h404]
      · rw [getAccessoryValue_legacy_reduce kind ecuId demoLoginUrl
          demoUserId w r hr h404]
        rcases hcase with ⟨s, hs⟩ | hfal | hmiss
        · by_cases hemp : jsFalsy r.data = true
          · simp [hemp]
          · have hcb : legacyCodeBad r.data = false := by rw [hs]; rfl
            have hpd : legacyPowerData r.data = none := by rw [hs]; rfl
            simp [hemp, hcb, hpd]
        · simp [hfal]
        · by_cases hemp : jsFalsy r.data = true
          · simp [hemp]
          · by_cases hcb : legacyCodeBad r.data = true
            · simp [hemp, hcb]
            · unfold legacyPowerMissing at hmiss
              cases hpd : legacyPowerData r.data with
              | none => simp [hemp, hcb, hpd]
              | some p =>
                rw [hpd] at hmiss
                cases p with
                | arr xs =>
                  cases xs with
                  | nil => simp [hemp, hcb, hpd, legacyValueFromPower]
                  | cons a as => simp at hmiss
                | null => simp [hemp, hcb, hpd, legacyValueFromPower]
                | bool b => simp [hemp, hcb, hpd, legacyValueFromPower]
                | num q => simp [hemp, hcb, hpd, legacyValueFromPower]
                | str s => simp [hemp, hcb, hpd, legacyValueFromPower]
                | obj fs => simp [hemp, hcb, hpd, legacyValueFromPower]
  · intro h
    rcases h with hlog | hjar | hdf | ⟨r, s, hr, hs, hhtml⟩ |
      ⟨r, s, hr, hs, hjson⟩ | ⟨r, hr, hfal⟩ | hmf
    · refine getAccessoryValue_session_zero_of_emptyCookies _ _ _ _ _ ?_
      simp [getDemoSessionCookies, hlog]
    · refine getAccessoryValue_session_zero_of_emptyCookies _ _ _ _ _ ?_
      simp [getDemoSessionCookies, hjar]
    · refine getAccessoryValue_session_zero_of_finalNone _ _ _ _ _ ?_
      intro ck
      simp [finalDashData, getDashboardData, hdf]
    · refine getAccessoryValue_session_zero_of_finalNone _ _ _ _ _ ?_
      intro ck
      simp [finalDashData, getDashboardData, hr, hs, hhtml]
    · refine getAccessoryValue_session_zero_of_finalNone _ _ _ _ _ ?_
      intro ck
      by_cases hhtml : isHtmlErrorBody s = true
      · simp [finalDashData, getDashboardData, hr, hs, hhtml]
      · simp [finalDashData, getDashboardData, hr, hs, hhtml, hjson]
    · refine getAccessoryValue_session_zero_of_finalNone _ _ _ _ _ ?_
      intro ck
      cases hd : r.data with
      | str s =>
        have hs0 : s = "" := by
          rw [hd] at hfal
          simpa [jsFalsy] using hfal
        subst hs0
        have hh : isHtmlErrorBody "" = false := by decide
        have hp : jsonParse "" = none := rfl
        simp [finalDashData, getDashboardData, hr, hd, hh, hp]
      | null => simp [finalDashData, getDashboardData, hr, hd, jsFalsy]
      | bool b =>
        rw [hd] at hfal
        simp [finalDashData, getDashboardData, hr, hd, jsFalsy,
          (by simpa [jsFalsy] using hfal : b = false)]
      | num q =>
        rw [hd] at hfal
        simp [finalDashData, getDashboardData, hr, hd, jsFalsy,
          (by simpa [jsFalsy] using hfal : q = 0)]
      | arr es =>
        rw [hd] at hfal
        simp [jsFalsy] at hfal
      | obj fs =>
        rw [hd] at hfal
        simp [jsFalsy] at hfal
    · by_cases hcred : jsFalsyOptStr demoLoginUrl ∧ jsFalsyOptStr demoUserId
      · simp [getAccessoryValue, hcred]
      · cases hck : (getDemoSessionCookies demoLoginUrl demoUserId w).isEmpty
        · cases hfd : finalDashData
            (getDemoSessionCookies demoLoginUrl demoUserId w) w with
          | none => simp [getAccessoryValue, hcred, hck, hfd]
          | some d =>
            have hz := @normalizeDashboard_eq_zero_of_no_valid kind d
              (hmf _ d hfd)
            simp [getAccessoryValue, hcred, hck, hfd, hz]
        · simp [getAccessoryValue, hcred, hck]

/-- Witness for C1: a world where both fetches reject (network error)
yields reading `0` in both modes. -/
theorem getAccessoryValue_degraded_zero_witness :
    DegradedLegacy ⟨none, false, [], none⟩ ∧
    DegradedSession ⟨none, false, [], none⟩ ∧
    getAccessoryValue "Watts" true (some "ecu") none none
      ⟨none, false, [], none⟩ = 0 ∧
    getAccessoryValue "Kwh" false none (some "http://u") none
      ⟨none, false, [], none⟩ = 0 :=
  ⟨Or.inl rfl, Or.inl rfl,
   (getAccessoryValue_degraded_zero "Watts" (some "ecu") none none
     ⟨none, false, [], none⟩).1 (Or.inl rfl),
   (getAccessoryValue_degraded_zero "Kwh" none (some "http://u") none
     ⟨none, false, [], none⟩).2 (Or.inl rfl)⟩

end APS
